import Mathlib

/-!
Verification of the market-data synchronization and leaderboard pipeline of
`backend/cmd_trading/flow_stock_metrics.py`.

Shallow embedding conventions:
* Prices are modelled as rationals (`ℚ`), volumes and calendar dates as
  integers (`ℤ`); a date integer stands for the `"%Y-%m-%d"` day number, so
  `timedelta(days = k)` subtraction becomes integer subtraction and the
  lexicographic order on date strings becomes the order on `ℤ`.
* MongoDB collections become Lean lists of records; `find(...).sort(...)`
  becomes filter plus a stable sort, `limit(k)` becomes `List.take k`, and
  `update_one(filter, {"$set": doc}, upsert = True)` becomes replace-first-
  match-or-append.
* Pandas calls are embedded by their documented semantics:
  `rolling(window = w).mean()` of the last row is the mean of the last `w`
  closes when at least `w` exist and NaN otherwise (NaN is rendered as
  `Option.none`, and the chained `<` comparison of the source, which is
  `False` on NaN, is rendered as `false` when any operand is `none`);
  `ewm(span = 20, adjust = False).mean()` is the recursion
  `y0 = x0, y = (1 - a) * y + a * x` with `a = 2 / 21`.
* The `caskada` flow framework is an external library; the per-instrument
  task boundary it provides is modelled from the spec where noted.
-/

/-- One daily OHLCV bar, as stored in the `daily_bars` collection
(`flow_stock_metrics.py` lines 108-116).  The Python field `open` is
rendered `open_` because `open` is a Lean keyword. -/
structure Bar where
  instrumentId : ℕ
  date : ℤ
  open_ : ℚ
  high : ℚ
  low : ℚ
  close : ℚ
  volume : ℤ
deriving DecidableEq

/-- Ascending-by-date comparison used for `sorted(daily_bars, key = lambda x: x["date"])`
(line 144). -/
def barDateLe (a b : Bar) : Prop := a.date ≤ b.date

/-- Descending-by-date comparison used for `.sort("date", -1)` (lines 62 and 132). -/
def barDateGe (a b : Bar) : Prop := b.date ≤ a.date

instance : DecidableRel barDateLe := fun a b => inferInstanceAs (Decidable (a.date ≤ b.date))

instance : DecidableRel barDateGe := fun a b => inferInstanceAs (Decidable (b.date ≤ a.date))

instance : IsTotal Bar barDateLe := ⟨fun a b => le_total a.date b.date⟩

instance : IsTrans Bar barDateLe := ⟨fun _ _ _ h1 h2 => le_trans h1 h2⟩

instance : IsTotal Bar barDateGe := ⟨fun a b => le_total b.date a.date⟩

instance : IsTrans Bar barDateGe := ⟨fun _ _ _ h1 h2 => le_trans h2 h1⟩

/-- Requested fetch span: the source keeps it as the string `"1y"` or
`f"{k}d"` (lines 67 and 84); only the two shapes occur. -/
inductive FetchPeriod where
  | oneYear : FetchPeriod
  | days : ℤ → FetchPeriod
deriving DecidableEq

/-- Outcome of the freshness check: the `need_fetch` flag and the
`fetch_period` value of lines 66-90. -/
structure FetchDecision where
  need_fetch : Bool
  fetch_period : FetchPeriod
deriving DecidableEq

/-- Date of the most recent cached bar: `max(bar["date"] for bar in existing_bars)`
(line 75), defined on a head/tail split since the source only evaluates it on a
non-empty list; the `[]` value 0 is never used by `freshnessDecide`. -/
def mostRecentD : List Bar → ℤ
  | [] => 0
  | b :: bs => bs.foldl (fun a x => max a x.date) b.date

/-- Freshness policy of `FetchDailyBarsAndComputeMetrics.exec`, lines 65-90:
no cached bars means a full `1y` fetch; otherwise data older than one day
means a top-up fetch of `min(days_old + 5, 30)` days; otherwise fewer than
252 cached bars means a full `1y` fetch; otherwise no fetch. -/
def freshnessDecide (existing_bars : List Bar) (today : ℤ) : FetchDecision :=
  if existing_bars.isEmpty then ⟨true, .oneYear⟩
  else if 1 < today - mostRecentD existing_bars then
    ⟨true, .days (min (today - mostRecentD existing_bars + 5) 30)⟩
  else if existing_bars.length < 252 then ⟨true, .oneYear⟩
  else ⟨false, .oneYear⟩

/-- Cache read of lines 60-63 and 130-133:
`db.daily_bars.find({"instrumentId": iid}).sort("date", -1).limit(300)`. -/
def readRecentBars (store : List Bar) (iid : ℕ) : List Bar :=
  ((store.filter fun b => decide (b.instrumentId = iid)).insertionSort barDateGe).take 300

/-- Ascending re-sort applied before metrics computation (line 144); this is
the bar series every metric of one run is computed over. -/
def metricsSeries (store : List Bar) (iid : ℕ) : List Bar :=
  (readRecentBars store iid).insertionSort barDateLe

/-- Upsert into `daily_bars` (lines 120-124):
`update_one({"instrumentId": ..., "date": ...}, {"$set": bar}, upsert = True)`
replaces the first record with the same key or appends the record. -/
def upsertBar : List Bar → Bar → List Bar
  | [], bar => [bar]
  | b :: bs, bar =>
    if b.instrumentId = bar.instrumentId ∧ b.date = bar.date then bar :: bs
    else b :: upsertBar bs bar

/-- Effect of one run of the bar-synchronization part of
`FetchDailyBarsAndComputeMetrics.exec` (lines 59-133) on the `daily_bars`
collection: read the cached bars, decide freshness, and on a fetch upsert
every row the external source returns for the requested period. -/
def syncBars (src : FetchPeriod → List Bar) (today : ℤ) (iid : ℕ)
    (store : List Bar) : List Bar :=
  let existing := readRecentBars store iid
  let dec := freshnessDecide existing today
  if dec.need_fetch then (src dec.fetch_period).foldl upsertBar store else store

/-- Barrier of `ComputeLeaderboards.exec`, lines 211-218: each completing
per-instrument task runs `memory.batches_nb -= 1` followed by
`if memory.batches_nb > 0: return`, all inside one event-loop step, so the
decrement-and-check is atomic.  `runTasks c l` folds those steps over the
completion sequence `l`, returning the final counter and how many steps
reached the aggregation branch. -/
def runTasks {α : Type} : ℤ → List α → ℤ × ℕ
  | c, [] => (c, 0)
  | c, _ :: rest =>
    let c1 := c - 1
    let r := runTasks c1 rest
    (r.1, (if c1 ≤ 0 then 1 else 0) + r.2)

theorem runTasks_spec {α : Type} :
    ∀ (l : List α) (c : ℤ), 1 ≤ c → l.length = c → runTasks c l = (0, 1) := by
  intro l
  induction l with
  | nil => intro c h1 h2; simp at h2; omega
  | cons a t ih =>
    intro c h1 h2
    simp only [List.length_cons] at h2
    by_cases hc : c = 1
    · subst hc
      have ht : t = [] := by
        have : t.length = 0 := by omega
        exact List.length_eq_zero.mp this
      subst ht
      simp [runTasks]
    · have h1' : 1 ≤ c - 1 := by omega
      have h2' : (t.length : ℤ) = c - 1 := by omega
      have := ih (c - 1) h1' h2'
      simp only [runTasks, this]
      have : ¬ (c - 1 ≤ 0) := by omega
      simp [this]

/-- Last element of a non-empty list, written as a plain recursion so that it
reduces definitionally; `lastOf b bs` is `(b :: bs)[-1]` in Python terms. -/
def lastOf (b : Bar) : List Bar → Bar
  | [] => b
  | c :: cs => lastOf c cs

/-- Window slice of line 147-148: `bars[-n:] if len(bars) >= n else bars`. -/
def windowBars (bars : List Bar) (n : ℕ) : List Bar :=
  if n ≤ bars.length then bars.drop (bars.length - n) else bars

/-- Statistics one window contributes to the metrics record: the six
`high_/low_/change_from_low_/change_pct_from_low_/change_from_high_/
change_pct_from_high_` keys of lines 169-176.  A percent change is `none`
exactly when the Python conditional expression yields `None` (a zero
denominator, by float truthiness). -/
structure WindowStats where
  high : ℚ
  low : ℚ
  change_from_low : ℚ
  change_pct_from_low : Option ℚ
  change_from_high : ℚ
  change_pct_from_high : Option ℚ
deriving DecidableEq

/-- Window statistics of lines 163-176 for one window size `n`; `none` only
when the slice is empty (the `if len(wbars) < 1: continue` guard of line
165), which cannot happen on a non-empty series. -/
def computeWindowStats (bars : List Bar) (last_price : ℚ) (n : ℕ) : Option WindowStats :=
  match windowBars bars n with
  | [] => none
  | b :: bs =>
    let h := bs.foldl (fun a x => max a x.high) b.high
    let l := bs.foldl (fun a x => min a x.low) b.low
    some
      { high := h
        low := l
        change_from_low := last_price - l
        change_pct_from_low := if l = 0 then none else some ((last_price - l) / l * 100)
        change_from_high := last_price - h
        change_pct_from_high := if h = 0 then none else some ((last_price - h) / h * 100) }

/-- The six window labels of line 163. -/
inductive WLabel where
  | w5d | w1M | w2M | w3M | w6M | w52w
deriving DecidableEq

/-- Window size paired with each label on line 163. -/
def windowSize : WLabel → ℕ
  | .w5d => 5
  | .w1M => 21
  | .w2M => 42
  | .w3M => 63
  | .w6M => 126
  | .w52w => 252

/-- Label string used in the metric keys and the board `period` field. -/
def wlabelStr : WLabel → String
  | .w5d => "5d"
  | .w1M => "1M"
  | .w2M => "2M"
  | .w3M => "3M"
  | .w6M => "6M"
  | .w52w => "52w"

/-- Last row of `df["close"].rolling(window = w).mean()` (lines 182-184):
the mean of the trailing `w` closes when at least `w` exist, NaN (`none`)
otherwise. -/
def rollingMeanLast (closes : List ℚ) (w : ℕ) : Option ℚ :=
  if closes.length < w then none
  else some ((closes.drop (closes.length - w)).sum / w)

/-- Last row of `df["close"].ewm(span = 20, adjust = False).mean()` with the
smoothing factor `a` left as a parameter (`a = 2 / (span + 1)`): the pandas
`adjust = False` recursion `y0 = x0`, `y = (1 - a) * y + a * x`. -/
def ewmLast (a : ℚ) : List ℚ → Option ℚ
  | [] => none
  | c :: cs => some (cs.foldl (fun prev x => (1 - a) * prev + a * x) c)

/-- Chained comparison of lines 194-196,
`bool(ma200 < ma100 < ma50 < ema20 < last_price)`: any NaN operand makes a
float comparison `False`, so any `none` yields `false`. -/
def stackedMaTrend (ma200 ma100 ma50 ema20 : Option ℚ) (last_price : ℚ) : Bool :=
  match ma200, ma100, ma50, ema20 with
  | some a, some b, some c, some d => decide (a < b ∧ b < c ∧ c < d ∧ d < last_price)
  | _, _, _, _ => false

/-- One record of the `daily_metrics` collection, the dict built in lines
155-196.  The window-indexed keys are collected in the `ws` field. -/
structure DailyMetric where
  instrumentId : ℕ
  symbol : String
  date : ℤ
  last_price : ℚ
  volume : ℤ
  computedAt : String
  ws : WLabel → Option WindowStats
  ma50 : Option ℚ
  ma100 : Option ℚ
  ma200 : Option ℚ
  ema20 : Option ℚ
  stacked_ma_trend : Bool

/-- Metrics computation of lines 138-196: skip (`none`) when no bars are
available, otherwise sort ascending by date and fill the record. -/
def computeMetrics (iid : ℕ) (symbol : String) (now : String)
    (daily_bars : List Bar) : Option DailyMetric :=
  if daily_bars.isEmpty then none
  else
    match daily_bars.insertionSort barDateLe with
    | [] => none
    | b :: bs =>
      let lastB := lastOf b bs
      let last_price := lastB.close
      let closes := (b :: bs).map (fun x => x.close)
      some
        { instrumentId := iid
          symbol := symbol
          date := lastB.date
          last_price := last_price
          volume := lastB.volume
          computedAt := now
          ws := fun label => computeWindowStats (b :: bs) last_price (windowSize label)
          ma50 := rollingMeanLast closes 50
          ma100 := rollingMeanLast closes 100
          ma200 := rollingMeanLast closes 200
          ema20 := ewmLast (2 / 21) closes
          stacked_ma_trend :=
            stackedMaTrend (rollingMeanLast closes 200) (rollingMeanLast closes 100)
              (rollingMeanLast closes 50) (ewmLast (2 / 21) closes) last_price }

/-- Upsert into `daily_metrics` (lines 199-202), keyed by
`(instrumentId, date)` exactly like the bar upsert. -/
def upsertMetric : List DailyMetric → DailyMetric → List DailyMetric
  | [], m => [m]
  | x :: xs, m =>
    if x.instrumentId = m.instrumentId ∧ x.date = m.date then m :: xs
    else x :: upsertMetric xs m

/-- Board direction of line 232: `("high", -1)` sorts descending, `("low", 1)`
ascending. -/
inductive BoardType where
  | high : BoardType
  | low : BoardType
deriving DecidableEq

/-- String stored in the board `type` field. -/
def boardTypeStr : BoardType → String
  | .high => "high"
  | .low => "low"

/-- Sort key of line 235: `change_pct_from_low_{label}` for the gainers
board, `change_pct_from_high_{label}` for the losers board; `none` models a
missing key or a stored `None`. -/
def metricSortKey (label : WLabel) (typ : BoardType) (m : DailyMetric) : Option ℚ :=
  match typ with
  | .high => (m.ws label).bind (fun s => s.change_pct_from_low)
  | .low => (m.ws label).bind (fun s => s.change_pct_from_high)

/-- Descending comparison on a metric sort key (Mongo sort direction -1);
the `getD 0` default is never reached on query results, whose key is
non-`none` by the query filter. -/
def mDescRel (key : DailyMetric → Option ℚ) (a b : DailyMetric) : Prop :=
  (key b).getD 0 ≤ (key a).getD 0

/-- Ascending comparison on a metric sort key (Mongo sort direction 1). -/
def mAscRel (key : DailyMetric → Option ℚ) (a b : DailyMetric) : Prop :=
  (key a).getD 0 ≤ (key b).getD 0

instance (key : DailyMetric → Option ℚ) : DecidableRel (mDescRel key) :=
  fun a b => inferInstanceAs (Decidable ((key b).getD 0 ≤ (key a).getD 0))

instance (key : DailyMetric → Option ℚ) : DecidableRel (mAscRel key) :=
  fun a b => inferInstanceAs (Decidable ((key a).getD 0 ≤ (key b).getD 0))

instance (key : DailyMetric → Option ℚ) : IsTotal DailyMetric (mDescRel key) :=
  ⟨fun a b => le_total ((key b).getD 0) ((key a).getD 0)⟩

instance (key : DailyMetric → Option ℚ) : IsTrans DailyMetric (mDescRel key) :=
  ⟨fun _ _ _ h1 h2 => le_trans h2 h1⟩

instance (key : DailyMetric → Option ℚ) : IsTotal DailyMetric (mAscRel key) :=
  ⟨fun a b => le_total ((key a).getD 0) ((key b).getD 0)⟩

instance (key : DailyMetric → Option ℚ) : IsTrans DailyMetric (mAscRel key) :=
  ⟨fun _ _ _ h1 h2 => le_trans h1 h2⟩

/-- Query of lines 239-242:
`db.daily_metrics.find({key: {"$ne": None}, "date": d}).sort([(key, dir)]).limit(3600)`.
A Mongo `$ne: None` filter keeps exactly the records where the key exists
and is non-null. -/
def queryMetrics (db : List DailyMetric) (label : WLabel) (typ : BoardType)
    (d : ℤ) : List DailyMetric :=
  let key := metricSortKey label typ
  let base := db.filter fun m => decide (m.date = d ∧ key m ≠ none)
  (match typ with
   | .high => base.insertionSort (mDescRel key)
   | .low => base.insertionSort (mAscRel key)).take 3600

/-- Candidate dates of lines 226-229: the execution date and the three
preceding calendar days, most recent first. -/
def dateTries (today : ℤ) : List ℤ := (List.range 4).map (fun δ => today - δ)

/-- Fallback loop of lines 236-244: try each candidate date in order and
break at the first non-empty result; the returned date is the final value of
the loop variable, the returned list the final value of `metrics`. -/
def runTries (q : ℤ → List DailyMetric) : ℤ → List ℤ → ℤ × List DailyMetric
  | d, [] => (d, q d)
  | d, d2 :: r =>
    let ms := q d
    if ms.isEmpty then runTries q d2 r else (d, ms)

/-- The fallback search for one `(period, type)` board. -/
def boardSearch (db : List DailyMetric) (label : WLabel) (typ : BoardType)
    (today : ℤ) : ℤ × List DailyMetric :=
  match dateTries today with
  | [] => (today, [])
  | d :: rest => runTries (queryMetrics db label typ) d rest

/-- One entry of a gainers/losers board (lines 247-254). -/
structure BoardItem where
  instrumentId : ℕ
  symbol : String
  change_pct : ℚ
  last_price : ℚ
  volume : ℤ
  rank : ℕ
deriving DecidableEq

/-- Ranked items built by `enumerate(metrics, 1)` (lines 245-254);
`key m` is non-`none` on query results, so `getD 0` is the stored value. -/
def mkItems (key : DailyMetric → Option ℚ) : ℕ → List DailyMetric → List BoardItem
  | _, [] => []
  | r, m :: ms =>
    { instrumentId := m.instrumentId
      symbol := m.symbol
      change_pct := (key m).getD 0
      last_price := m.last_price
      volume := m.volume
      rank := r } :: mkItems key (r + 1) ms

/-- One record of the `leaderboards` collection for a gainers/losers board
(lines 255-261). -/
structure Board where
  date : ℤ
  period : String
  typ : String
  generatedAt : String
  items : List BoardItem
deriving DecidableEq

/-- One entry of the market-movers board (lines 274-281). -/
structure VolItem where
  instrumentId : ℕ
  symbol : String
  volume : ℤ
  last_price : ℚ
  rank : ℕ
deriving DecidableEq

/-- One record of the `leaderboards` collection for a market-movers board
(lines 282-288). -/
structure VolBoard where
  date : ℤ
  period : String
  typ : String
  generatedAt : String
  items : List VolItem
deriving DecidableEq

/-- Ranked market-movers items (lines 273-281). -/
def mkVolItems : ℕ → List DailyMetric → List VolItem
  | _, [] => []
  | r, m :: ms =>
    { instrumentId := m.instrumentId
      symbol := m.symbol
      volume := m.volume
      last_price := m.last_price
      rank := r } :: mkVolItems (r + 1) ms

/-- Descending comparison on `volume` (line 269). -/
def volDescRel (a b : DailyMetric) : Prop := b.volume ≤ a.volume

instance : DecidableRel volDescRel := fun a b => inferInstanceAs (Decidable (b.volume ≤ a.volume))

instance : IsTotal DailyMetric volDescRel := ⟨fun a b => le_total b.volume a.volume⟩

instance : IsTrans DailyMetric volDescRel := ⟨fun _ _ _ h1 h2 => le_trans h2 h1⟩

/-- Query of lines 268-271:
`find({"date": d, "volume": {"$ne": None}}).sort([("volume", -1)]).limit(3600)`;
the stored `volume` is never null (it is `int(...)` of a bar field), so the
`$ne` clause keeps every record of the date. -/
def volumeQuery (db : List DailyMetric) (d : ℤ) : List DailyMetric :=
  ((db.filter fun m => decide (m.date = d)).insertionSort volDescRel).take 3600

/-- The two gainers/losers boards written for one window label
(lines 231-265): both `update_one` calls run unconditionally, even on an
empty result set. -/
def pctBoardsForLabel (db : List DailyMetric) (today : ℤ) (now : String)
    (label : WLabel) : List Board :=
  [BoardType.high, BoardType.low].map fun typ =>
    let s := boardSearch db label typ today
    { date := s.1
      period := wlabelStr label
      typ := boardTypeStr typ
      generatedAt := now
      items := mkItems (metricSortKey label typ) 1 s.2 }

/-- Market-movers boards written inside one label iteration (lines 266-292):
the loop has no `break`, so one board is written for every candidate date
whose volume query is non-empty, and none when the query is empty. -/
def volBoardsForDates (db : List DailyMetric) (now : String)
    (tries : List ℤ) : List VolBoard :=
  tries.filterMap fun d =>
    let ms := volumeQuery db d
    if ms.isEmpty then none
    else some { date := d, period := "market_movers", typ := "volume",
                generatedAt := now, items := mkVolItems 1 ms }

/-- All `leaderboards` writes of one `ComputeLeaderboards` aggregation
(lines 231-292), split into the gainers/losers writes and the market-movers
writes; the market-movers block sits inside the label loop and therefore
repeats once per label. -/
def leaderboardWrites (db : List DailyMetric) (today : ℤ) (now : String) :
    List Board × List VolBoard :=
  let labels := [WLabel.w5d, .w1M, .w2M, .w3M, .w6M, .w52w]
  ((labels.map fun label => pctBoardsForLabel db today now label).flatten,
   (labels.map fun _ => volBoardsForDates db now (dateTries today)).flatten)

/-! Helper lemmas about folded maxima and minima, sorting, and ranked items. -/

theorem foldl_max_le_init {α : Type} [LinearOrder α] :
    ∀ (l : List α) (a : α), a ≤ l.foldl max a := by
  intro l
  induction l with
  | nil => intro a; exact le_refl a
  | cons b t ih => intro a; exact le_trans (le_max_left a b) (ih (max a b))

theorem foldl_max_mem {α : Type} [LinearOrder α] :
    ∀ (l : List α) (a : α), l.foldl max a = a ∨ l.foldl max a ∈ l := by
  intro l
  induction l with
  | nil => intro a; left; rfl
  | cons b t ih =>
    intro a
    rcases ih (max a b) with h | h
    · rcases le_total a b with hab | hab
      · right
        rw [List.foldl_cons, h, max_eq_right hab]
        exact List.mem_cons_self b t
      · left
        rw [List.foldl_cons, h, max_eq_left hab]
    · right
      rw [List.foldl_cons]
      exact List.mem_cons_of_mem b h

theorem le_foldl_max {α : Type} [LinearOrder α] :
    ∀ (l : List α) (a x : α), x ∈ l → x ≤ l.foldl max a := by
  intro l
  induction l with
  | nil => intro a x hx; cases hx
  | cons b t ih =>
    intro a x hx
    rcases List.mem_cons.mp hx with h | h
    · subst h
      exact le_trans (le_max_right a x) (foldl_max_le_init t (max a x))
    · exact ih (max a b) x h

theorem foldl_min_le_init {α : Type} [LinearOrder α] :
    ∀ (l : List α) (a : α), l.foldl min a ≤ a := by
  intro l
  induction l with
  | nil => intro a; exact le_refl a
  | cons b t ih => intro a; exact le_trans (ih (min a b)) (min_le_left a b)

theorem foldl_min_mem {α : Type} [LinearOrder α] :
    ∀ (l : List α) (a : α), l.foldl min a = a ∨ l.foldl min a ∈ l := by
  intro l
  induction l with
  | nil => intro a; left; rfl
  | cons b t ih =>
    intro a
    rcases ih (min a b) with h | h
    · rcases le_total a b with hab | hab
      · left
        rw [List.foldl_cons, h, min_eq_left hab]
      · right
        rw [List.foldl_cons, h, min_eq_right hab]
        exact List.mem_cons_self b t
    · right
      rw [List.foldl_cons]
      exact List.mem_cons_of_mem b h

theorem foldl_min_le {α : Type} [LinearOrder α] :
    ∀ (l : List α) (a x : α), x ∈ l → l.foldl min a ≤ x := by
  intro l
  induction l with
  | nil => intro a x hx; cases hx
  | cons b t ih =>
    intro a x hx
    rcases List.mem_cons.mp hx with h | h
    · subst h
      exact le_trans (foldl_min_le_init t (min a x)) (min_le_right a x)
    · exact ih (min a b) x h

theorem insertionSort_ne_nil {α : Type} (r : α → α → Prop) [DecidableRel r]
    {l : List α} (h : l ≠ []) : l.insertionSort r ≠ [] := by
  intro h0
  apply h
  have hlen := List.length_insertionSort r l
  rw [h0] at hlen
  exact List.length_eq_zero.mp hlen.symm

theorem mkItems_length (key : DailyMetric → Option ℚ) :
    ∀ (ms : List DailyMetric) (r : ℕ), (mkItems key r ms).length = ms.length := by
  intro ms
  induction ms with
  | nil => intro r; rfl
  | cons m t ih => intro r; simp [mkItems, ih]

theorem mkItems_rank (key : DailyMetric → Option ℚ) :
    ∀ (ms : List DailyMetric) (r i : ℕ) (h : i < (mkItems key r ms).length),
      ((mkItems key r ms).get ⟨i, h⟩).rank = r + i := by
  intro ms
  induction ms with
  | nil => intro r i h; simp [mkItems] at h
  | cons m t ih =>
    intro r i h
    match i with
    | 0 => simp [mkItems]
    | j + 1 =>
      have h' : j < (mkItems key (r + 1) t).length := by
        simp [mkItems] at h
        simpa [mkItems_length] using h
      have := ih (r + 1) j h'
      simp only [mkItems, List.get_cons_succ]
      rw [this]
      omega

theorem upsertMetric_mem_of_ne :
    ∀ (db : List DailyMetric) (m x : DailyMetric), x ∈ db →
      x.instrumentId ≠ m.instrumentId → x ∈ upsertMetric db m := by
  intro db
  induction db with
  | nil => intro m x hx; cases hx
  | cons y ys ih =>
    intro m x hx hne
    rcases List.mem_cons.mp hx with h | h
    · subst h
      by_cases hk : x.instrumentId = m.instrumentId ∧ x.date = m.date
      · exact absurd hk.1 hne
      · simp only [upsertMetric, if_neg hk]
        exact List.mem_cons_self x _
    · by_cases hk : y.instrumentId = m.instrumentId ∧ y.date = m.date
      · simp only [upsertMetric, if_pos hk]
        exact List.mem_cons_of_mem m h
      · simp only [upsertMetric, if_neg hk]
        exact List.mem_cons_of_mem y (ih m x h hne)


theorem dateTries_eq (t : ℤ) : dateTries t = [t, t - 1, t - 2, t - 3] := by
  simp [dateTries, List.range_succ]

theorem queryMetrics_length_le (db : List DailyMetric) (label : WLabel)
    (typ : BoardType) (d : ℤ) : (queryMetrics db label typ d).length ≤ 3600 := by
  unfold queryMetrics
  cases typ
  · exact List.length_take_le _ _
  · exact List.length_take_le _ _

theorem queryMetrics_mem (db : List DailyMetric) (label : WLabel)
    (typ : BoardType) (d : ℤ) :
    ∀ m ∈ queryMetrics db label typ d,
      m ∈ db ∧ m.date = d ∧ metricSortKey label typ m ≠ none := by
  intro m hm
  unfold queryMetrics at hm
  have hbase : m ∈ db.filter fun x =>
      decide (x.date = d ∧ metricSortKey label typ x ≠ none) := by
    cases typ with
    | high =>
      have h1 := (List.take_sublist 3600 _).subset hm
      exact (List.mem_insertionSort _).mp h1
    | low =>
      have h1 := (List.take_sublist 3600 _).subset hm
      exact (List.mem_insertionSort _).mp h1
  have h2 := List.mem_filter.mp hbase
  exact ⟨h2.1, of_decide_eq_true h2.2⟩

theorem queryMetrics_sorted_high (db : List DailyMetric) (label : WLabel) (d : ℤ) :
    List.Sorted (mDescRel (metricSortKey label .high)) (queryMetrics db label .high d) := by
  unfold queryMetrics
  exact List.Pairwise.sublist (List.take_sublist _ _) (List.sorted_insertionSort _ _)

theorem queryMetrics_sorted_low (db : List DailyMetric) (label : WLabel) (d : ℤ) :
    List.Sorted (mAscRel (metricSortKey label .low)) (queryMetrics db label .low d) := by
  unfold queryMetrics
  exact List.Pairwise.sublist (List.take_sublist _ _) (List.sorted_insertionSort _ _)

theorem boardSearch_props (db : List DailyMetric) (label : WLabel)
    (typ : BoardType) (today : ℤ) :
    (boardSearch db label typ today).2 =
        queryMetrics db label typ (boardSearch db label typ today).1 ∧
      (boardSearch db label typ today).1 ∈ dateTries today ∧
      ((boardSearch db label typ today).2 = [] →
        (boardSearch db label typ today).1 = today - 3) ∧
      ∀ d' ∈ dateTries today, (boardSearch db label typ today).1 < d' →
        queryMetrics db label typ d' = [] := by
  have htr := dateTries_eq today
  set q := queryMetrics db label typ with hq
  have hbs : boardSearch db label typ today =
      runTries q today [today - 1, today - 2, today - 3] := by
    unfold boardSearch
    rw [htr]
  by_cases h0 : (q today).isEmpty
  · by_cases h1 : (q (today - 1)).isEmpty
    · by_cases h2 : (q (today - 2)).isEmpty
      · have hr : boardSearch db label typ today = (today - 3, q (today - 3)) := by
          rw [hbs]; simp [runTries, h0, h1, h2]
        rw [hr, htr]
        refine ⟨rfl, by simp, fun _ => rfl, ?_⟩
        intro d' hd' hlt
        simp only [List.mem_cons, List.not_mem_nil, or_false] at hd'
        rcases hd' with h | h | h | h
        · subst h; exact List.isEmpty_iff.mp h0
        · subst h; exact List.isEmpty_iff.mp h1
        · subst h; exact List.isEmpty_iff.mp h2
        · subst h; omega
      · have hr : boardSearch db label typ today = (today - 2, q (today - 2)) := by
          rw [hbs]; simp [runTries, h0, h1, h2]
        rw [hr, htr]
        refine ⟨rfl, by simp,
          fun hh => absurd hh ((List.isEmpty_iff).not.mp (by simpa using h2)), ?_⟩
        intro d' hd' hlt
        simp only [List.mem_cons, List.not_mem_nil, or_false] at hd'
        rcases hd' with h | h | h | h
        · subst h; exact List.isEmpty_iff.mp h0
        · subst h; exact List.isEmpty_iff.mp h1
        · subst h; omega
        · subst h; omega
    · have hr : boardSearch db label typ today = (today - 1, q (today - 1)) := by
        rw [hbs]; simp [runTries, h0, h1]
      rw [hr, htr]
      refine ⟨rfl, by simp,
        fun hh => absurd hh ((List.isEmpty_iff).not.mp (by simpa using h1)), ?_⟩
      intro d' hd' hlt
      simp only [List.mem_cons, List.not_mem_nil, or_false] at hd'
      rcases hd' with h | h | h | h
      · subst h; exact List.isEmpty_iff.mp h0
      · subst h; omega
      · subst h; omega
      · subst h; omega
  · have hr : boardSearch db label typ today = (today, q today) := by
      rw [hbs]; simp [runTries, h0]
    rw [hr, htr]
    refine ⟨rfl, by simp,
      fun hh => absurd hh ((List.isEmpty_iff).not.mp (by simpa using h0)), ?_⟩
    intro d' hd' hlt
    simp only [List.mem_cons, List.not_mem_nil, or_false] at hd'
    rcases hd' with h | h | h | h
    · subst h; omega
    · subst h; omega
    · subst h; omega
    · subst h; omega

/-- Claim C10: for every instrument and run, the bar series supplied to
metrics computation holds at most 300 bars, every one of them a cached bar
of that instrument, and the 300 kept are the most recent by date: any
cached bar of the instrument left out is no newer than any bar kept. -/
theorem C10_bars_capped_300 (store : List Bar) (iid : ℕ) :
    (metricsSeries store iid).length ≤ 300 ∧
      (∀ b ∈ metricsSeries store iid, b ∈ store ∧ b.instrumentId = iid) ∧
      ∀ b ∈ metricsSeries store iid, ∀ c ∈ store, c.instrumentId = iid →
        c ∉ metricsSeries store iid → c.date ≤ b.date := by
  set F := store.filter (fun b => decide (b.instrumentId = iid)) with hF
  set L := F.insertionSort barDateGe with hL
  have hms : metricsSeries store iid = (L.take 300).insertionSort barDateLe := rfl
  refine ⟨?_, ?_, ?_⟩
  · rw [hms, List.length_insertionSort]
    exact List.length_take_le _ _
  · intro b hb
    rw [hms] at hb
    have hb1 : b ∈ L.take 300 := (List.mem_insertionSort _).mp hb
    have hb2 : b ∈ L := (List.take_sublist _ _).subset hb1
    have hb3 : b ∈ F := (List.mem_insertionSort _).mp hb2
    have hb4 := List.mem_filter.mp hb3
    exact ⟨hb4.1, of_decide_eq_true hb4.2⟩
  · intro b hb c hc hcid hcnot
    rw [hms] at hb hcnot
    have hb1 : b ∈ L.take 300 := (List.mem_insertionSort _).mp hb
    have hcnot1 : c ∉ L.take 300 := fun hcc => hcnot ((List.mem_insertionSort _).mpr hcc)
    have hc1 : c ∈ F := List.mem_filter.mpr ⟨hc, decide_eq_true hcid⟩
    have hc2 : c ∈ L := (List.mem_insertionSort _).mpr hc1
    have hcd : c ∈ L.drop 300 := by
      have hsplit : c ∈ L.take 300 ++ L.drop 300 := by
        rw [List.take_append_drop]; exact hc2
      rcases List.mem_append.mp hsplit with h | h
      · exact absurd h hcnot1
      · exact h
    have hpw : List.Pairwise barDateGe (L.take 300 ++ L.drop 300) := by
      rw [List.take_append_drop]
      exact List.sorted_insertionSort _ _
    exact (List.pairwise_append.mp hpw).2.2 b hb1 c hcd

theorem computeMetrics_eq (iid : ℕ) (sym now : String) (l : List Bar) (b : Bar)
    (bs : List Bar) (hs : l.insertionSort barDateLe = b :: bs) (hne : l ≠ []) :
    computeMetrics iid sym now l = some
      { instrumentId := iid
        symbol := sym
        date := (lastOf b bs).date
        last_price := (lastOf b bs).close
        volume := (lastOf b bs).volume
        computedAt := now
        ws := fun label => computeWindowStats (b :: bs) (lastOf b bs).close (windowSize label)
        ma50 := rollingMeanLast ((b :: bs).map (fun x => x.close)) 50
        ma100 := rollingMeanLast ((b :: bs).map (fun x => x.close)) 100
        ma200 := rollingMeanLast ((b :: bs).map (fun x => x.close)) 200
        ema20 := ewmLast (2 / 21) ((b :: bs).map (fun x => x.close))
        stacked_ma_trend := stackedMaTrend
          (rollingMeanLast ((b :: bs).map (fun x => x.close)) 200)
          (rollingMeanLast ((b :: bs).map (fun x => x.close)) 100)
          (rollingMeanLast ((b :: bs).map (fun x => x.close)) 50)
          (ewmLast (2 / 21) ((b :: bs).map (fun x => x.close)))
          (lastOf b bs).close } := by
  have hne' : ¬ (l.isEmpty = true) := fun h => hne (List.isEmpty_iff.mp h)
  unfold computeMetrics
  rw [if_neg hne', hs]

theorem rollingMeanLast_short (closes : List ℚ) (w : ℕ) (h : closes.length < w) :
    rollingMeanLast closes w = none := by
  unfold rollingMeanLast
  rw [if_pos h]

theorem rollingMeanLast_long (closes : List ℚ) (w : ℕ) (h : w ≤ closes.length) :
    rollingMeanLast closes w = some ((closes.drop (closes.length - w)).sum / w) := by
  unfold rollingMeanLast
  rw [if_neg (by omega)]

/-- Claim C5 (general part): in the computed metric, each of ma50, ma100 and
ma200 is the arithmetic mean of the closing price over the trailing 50, 100
or 200 bars of the date-sorted series, and is null when fewer bars exist
than its window; a null ma50 forces the stacked trend flag to false. -/
theorem stackedMaTrend_none3 (a b d : Option ℚ) (lp : ℚ) :
    stackedMaTrend a b none d lp = false := by
  cases a <;> cases b <;> cases d <;> rfl

theorem C5_moving_averages (iid : ℕ) (sym now : String) (l : List Bar) (hne : l ≠ []) :
    ∃ m, computeMetrics iid sym now l = some m ∧
      (l.length < 50 → m.ma50 = none) ∧
      (50 ≤ l.length → m.ma50 = some
        ((((l.insertionSort barDateLe).drop (l.length - 50)).map (fun x => x.close)).sum / 50)) ∧
      (l.length < 100 → m.ma100 = none) ∧
      (100 ≤ l.length → m.ma100 = some
        ((((l.insertionSort barDateLe).drop (l.length - 100)).map (fun x => x.close)).sum / 100)) ∧
      (l.length < 200 → m.ma200 = none) ∧
      (200 ≤ l.length → m.ma200 = some
        ((((l.insertionSort barDateLe).drop (l.length - 200)).map (fun x => x.close)).sum / 200)) ∧
      (m.ma50 = none → m.stacked_ma_trend = false) := by
  obtain ⟨b, bs, hs⟩ : ∃ b bs, l.insertionSort barDateLe = b :: bs := by
    cases h : l.insertionSort barDateLe with
    | nil => exact absurd h (insertionSort_ne_nil _ hne)
    | cons x xs => exact ⟨x, xs, rfl⟩
  have hlen : (b :: bs).length = l.length := by
    rw [← hs, List.length_insertionSort]
  have hclen : ((b :: bs).map (fun x => x.close)).length = l.length := by
    rw [List.length_map, hlen]
  refine ⟨_, computeMetrics_eq iid sym now l b bs hs hne, ?_, ?_, ?_, ?_, ?_, ?_, ?_⟩
  · intro h
    show rollingMeanLast ((b :: bs).map (fun x => x.close)) 50 = none
    exact rollingMeanLast_short _ _ (by rw [hclen]; exact h)
  · intro h
    show rollingMeanLast ((b :: bs).map (fun x => x.close)) 50 = _
    rw [rollingMeanLast_long _ _ (by rw [hclen]; exact h)]
    rw [hclen, ← List.map_drop, hs]
    norm_num
  · intro h
    show rollingMeanLast ((b :: bs).map (fun x => x.close)) 100 = none
    exact rollingMeanLast_short _ _ (by rw [hclen]; exact h)
  · intro h
    show rollingMeanLast ((b :: bs).map (fun x => x.close)) 100 = _
    rw [rollingMeanLast_long _ _ (by rw [hclen]; exact h)]
    rw [hclen, ← List.map_drop, hs]
    norm_num
  · intro h
    show rollingMeanLast ((b :: bs).map (fun x => x.close)) 200 = none
    exact rollingMeanLast_short _ _ (by rw [hclen]; exact h)
  · intro h
    show rollingMeanLast ((b :: bs).map (fun x => x.close)) 200 = _
    rw [rollingMeanLast_long _ _ (by rw [hclen]; exact h)]
    rw [hclen, ← List.map_drop, hs]
    norm_num
  · intro h
    have h50 : rollingMeanLast ((b :: bs).map (fun x => x.close)) 50 = none := h
    show stackedMaTrend (rollingMeanLast ((b :: bs).map (fun x => x.close)) 200)
      (rollingMeanLast ((b :: bs).map (fun x => x.close)) 100)
      (rollingMeanLast ((b :: bs).map (fun x => x.close)) 50)
      (ewmLast (2 / 21) ((b :: bs).map (fun x => x.close))) (lastOf b bs).close = false
    rw [h50]
    exact stackedMaTrend_none3 _ _ _ _

/-- Spec-side definition for claim C6, following the spec text: the EMA is
seeded by the first close, then at each subsequent bar steps by
`ema = prev + a * (close - prev)`; `none` on an empty series. -/
def emaSpecLast (a : ℚ) : List ℚ → Option ℚ
  | [] => none
  | c :: cs => some (cs.foldl (fun prev x => prev + a * (x - prev)) c)

/-- Claim C6: the computed ema20 (pandas `ewm(span = 20, adjust = False)`,
smoothing factor 2/21) equals the spec's recursive EMA seeded by the first
close on every closing-price series, and on the closes [10,12,11,13,15] it
differs from the plain average of the closes. -/
theorem C6_ema_recursion :
    (∀ closes : List ℚ, ewmLast (2 / 21) closes = emaSpecLast (2 / 21) closes) ∧
      ewmLast (2 / 21) [10, 12, 11, 13, 15] ≠ some ((10 + 12 + 11 + 13 + 15) / 5) := by
  constructor
  · intro closes
    cases closes with
    | nil => rfl
    | cons c cs =>
      show some (cs.foldl (fun prev x => (1 - 2 / 21) * prev + 2 / 21 * x) c) =
        some (cs.foldl (fun prev x => prev + 2 / 21 * (x - prev)) c)
      congr 1
      apply List.foldl_ext
      intro p x _
      ring
  · simp only [ewmLast, List.foldl]
    norm_num

/-- Claim C7: for every non-empty bar series and window size in
{5, 21, 42, 63, 126, 252}, the window slice is a suffix of the series of
length `min n len`, the window high/low are the maximum of the `high`
fields and the minimum of the `low` fields over that slice, the change
fields measure the last price against those extremes, and each percent
change is null exactly on a zero denominator. -/
theorem C7_window_stats (bars : List Bar) (lp : ℚ) (n : ℕ) (hne : bars ≠ [])
    (hn : n ∈ [5, 21, 42, 63, 126, 252]) :
    (windowBars bars n).length = min n bars.length ∧
      windowBars bars n <:+ bars ∧
      ∃ s, computeWindowStats bars lp n = some s ∧
        s.high ∈ (windowBars bars n).map (fun x => x.high) ∧
        (∀ y ∈ (windowBars bars n).map (fun x => x.high), y ≤ s.high) ∧
        s.low ∈ (windowBars bars n).map (fun x => x.low) ∧
        (∀ y ∈ (windowBars bars n).map (fun x => x.low), s.low ≤ y) ∧
        s.change_from_low = lp - s.low ∧
        (s.low = 0 → s.change_pct_from_low = none) ∧
        (s.low ≠ 0 → s.change_pct_from_low = some ((lp - s.low) / s.low * 100)) ∧
        s.change_from_high = lp - s.high ∧
        (s.high = 0 → s.change_pct_from_high = none) ∧
        (s.high ≠ 0 → s.change_pct_from_high = some ((lp - s.high) / s.high * 100)) := by
  have hn1 : 1 ≤ n := by
    simp only [List.mem_cons, List.not_mem_nil, or_false] at hn
    rcases hn with h | h | h | h | h | h <;> omega
  have hlenpos : 0 < bars.length := List.length_pos.mpr hne
  have hwlen : (windowBars bars n).length = min n bars.length := by
    unfold windowBars
    split
    · rw [List.length_drop]; omega
    · omega
  refine ⟨hwlen, ?_, ?_⟩
  · unfold windowBars
    split
    · exact List.drop_suffix _ _
    · exact List.suffix_refl _
  · cases hw : windowBars bars n with
    | nil =>
      exfalso
      rw [hw] at hwlen
      simp only [List.length_nil] at hwlen
      omega
    | cons b bs =>
      have hfoldh : bs.foldl (fun a x => max a x.high) b.high =
          (bs.map (fun x => x.high)).foldl max b.high :=
        (List.foldl_map _ _ _ _).symm
      have hfoldl : bs.foldl (fun a x => min a x.low) b.low =
          (bs.map (fun x => x.low)).foldl min b.low :=
        (List.foldl_map _ _ _ _).symm
      have hcs : computeWindowStats bars lp n = some
          { high := bs.foldl (fun a x => max a x.high) b.high
            low := bs.foldl (fun a x => min a x.low) b.low
            change_from_low := lp - bs.foldl (fun a x => min a x.low) b.low
            change_pct_from_low := if bs.foldl (fun a x => min a x.low) b.low = 0 then none
              else some ((lp - bs.foldl (fun a x => min a x.low) b.low) /
                bs.foldl (fun a x => min a x.low) b.low * 100)
            change_from_high := lp - bs.foldl (fun a x => max a x.high) b.high
            change_pct_from_high := if bs.foldl (fun a x => max a x.high) b.high = 0 then none
              else some ((lp - bs.foldl (fun a x => max a x.high) b.high) /
                bs.foldl (fun a x => max a x.high) b.high * 100) } := by
        unfold computeWindowStats
        rw [hw]
      refine ⟨_, hcs, ?_, ?_, ?_, ?_, rfl, ?_, ?_, rfl, ?_, ?_⟩
      · show bs.foldl (fun a x => max a x.high) b.high ∈ (b :: bs).map (fun x => x.high)
        rw [List.map_cons, hfoldh]
        rcases foldl_max_mem (bs.map (fun x => x.high)) b.high with h | h
        · rw [h]; exact List.mem_cons_self _ _
        · exact List.mem_cons_of_mem _ h
      · intro y hy
        show y ≤ bs.foldl (fun a x => max a x.high) b.high
        rw [List.map_cons, List.mem_cons] at hy
        rw [hfoldh]
        rcases hy with h | h
        · rw [h]; exact foldl_max_le_init _ _
        · exact le_foldl_max _ _ _ h
      · show bs.foldl (fun a x => min a x.low) b.low ∈ (b :: bs).map (fun x => x.low)
        rw [List.map_cons, hfoldl]
        rcases foldl_min_mem (bs.map (fun x => x.low)) b.low with h | h
        · rw [h]; exact List.mem_cons_self _ _
        · exact List.mem_cons_of_mem _ h
      · intro y hy
        show bs.foldl (fun a x => min a x.low) b.low ≤ y
        rw [List.map_cons, List.mem_cons] at hy
        rw [hfoldl]
        rcases hy with h | h
        · rw [h]; exact foldl_min_le_init _ _
        · exact foldl_min_le _ _ _ h
      · intro h0
        show (if bs.foldl (fun a x => min a x.low) b.low = 0 then none
          else some ((lp - bs.foldl (fun a x => min a x.low) b.low) /
            bs.foldl (fun a x => min a x.low) b.low * 100)) = none
        rw [if_pos h0]
      · intro h0
        show (if bs.foldl (fun a x => min a x.low) b.low = 0 then none
          else some ((lp - bs.foldl (fun a x => min a x.low) b.low) /
            bs.foldl (fun a x => min a x.low) b.low * 100)) = _
        rw [if_neg h0]
      · intro h0
        show (if bs.foldl (fun a x => max a x.high) b.high = 0 then none
          else some ((lp - bs.foldl (fun a x => max a x.high) b.high) /
            bs.foldl (fun a x => max a x.high) b.high * 100)) = none
        rw [if_pos h0]
      · intro h0
        show (if bs.foldl (fun a x => max a x.high) b.high = 0 then none
          else some ((lp - bs.foldl (fun a x => max a x.high) b.high) /
            bs.foldl (fun a x => max a x.high) b.high * 100)) = _
        rw [if_neg h0]

/-- Claim C1: for every run with N ≥ 1 instruments, under every completion
ordering of the N per-instrument tasks, each performing one atomic
decrement-and-check of the shared `batches_nb` counter, the
leaderboard-aggregation branch is reached exactly once — never zero times
and never more than once — and the counter ends at zero. -/
theorem C1_leaderboard_triggered_exactly_once {α : Type} (N : ℕ) (order : List α)
    (h1 : 1 ≤ N) (h2 : order.length = N) : runTasks (N : ℤ) order = (0, 1) :=
  runTasks_spec order N (by exact_mod_cast h1) (by exact_mod_cast h2)

/-- Witness for C1 at the spec's N = 50, tasks in one concrete order. -/
theorem C1_witness : runTasks (50 : ℤ) (List.replicate 50 (0 : ℕ)) = (0, 1) :=
  C1_leaderboard_triggered_exactly_once 50 (List.replicate 50 0) (by norm_num) (by simp)

/-- Modelled from the spec: the per-task boundary of the external `caskada`
flow framework, whose sources are not part of this repository.  Spec 4.4:
"A task's failure (fetch error, malformed data) is caught and logged at the
task boundary; it does not abort the run, and the outstanding counter is
decremented exactly once regardless of success or failure".  Every outcome
(`true` = success, `false` = caught failure) therefore reaches the
decrement-and-check of `ComputeLeaderboards.exec` exactly once. -/
def runGuardedTasks (c : ℤ) (outcomes : List Bool) : ℤ × ℕ := runTasks c outcomes

/-- Modelled from the spec: a per-instrument task that fails performs no
metric write for this run; a successful task upserts one metric record. -/
def taskMetricWrite (ok : Bool) (db : List DailyMetric) (m : DailyMetric) :
    List DailyMetric :=
  if ok then upsertMetric db m else db

/-- Claim C3: whatever mix of task successes and caught failures a run of
N ≥ 1 instruments sees, every task decrements the counter exactly once, so
the run still reaches aggregation exactly once; and no task's write touches
a metric record of a different instrument. -/
theorem C3_task_failure_isolated (N : ℕ) (outcomes : List Bool) (h1 : 1 ≤ N)
    (h2 : outcomes.length = N) :
    runGuardedTasks (N : ℤ) outcomes = (0, 1) ∧
      ∀ (ok : Bool) (db : List DailyMetric) (m x : DailyMetric), x ∈ db →
        x.instrumentId ≠ m.instrumentId → x ∈ taskMetricWrite ok db m := by
  constructor
  · exact runTasks_spec outcomes N (by exact_mod_cast h1) (by exact_mod_cast h2)
  · intro ok db m x hx hne
    cases ok
    · exact hx
    · exact upsertMetric_mem_of_ne db m x hx hne

/-- Window-statistics table used by concrete sample metric records. -/
def wsEx : WLabel → Option WindowStats :=
  fun _ => some ⟨1, 1, 1, some 5, 1, some (-5)⟩

/-- Sample metric record of instrument 1. -/
def c3x : DailyMetric := ⟨1, "A", 0, 1, 1, "t", wsEx, none, none, none, none, false⟩

/-- Sample metric record of instrument 2. -/
def c3m : DailyMetric := ⟨2, "B", 0, 1, 1, "t", wsEx, none, none, none, none, false⟩

/-- Witness for C3: 50 tasks, half failing, still one aggregation; a failed
write leaves an unrelated instrument's record in place. -/
theorem C3_witness :
    runGuardedTasks (50 : ℤ) (List.replicate 25 true ++ List.replicate 25 false) = (0, 1) ∧
      c3x ∈ taskMetricWrite false [c3x] c3m :=
  ⟨(C3_task_failure_isolated 50 _ (by norm_num) (by simp)).1,
    (C3_task_failure_isolated 1 [true] (by norm_num) (by simp)).2 false [c3x] c3m c3x
      (List.mem_singleton.mpr rfl) (by decide)⟩

/-- Claim C4: the freshness decision follows the case order of the code —
empty cache: full 1y fetch; else stale by more than one day: top-up fetch of
min(daysOld + 5, 30) days (a capped short span, checked before the bar
count, so never a full-year refetch); else fewer than 252 bars: full 1y
fetch; else no fetch. -/
theorem C4_freshness_policy_order (existing_bars : List Bar) (today : ℤ) :
    (existing_bars = [] →
        freshnessDecide existing_bars today = ⟨true, .oneYear⟩) ∧
      (existing_bars ≠ [] → 1 < today - mostRecentD existing_bars →
        freshnessDecide existing_bars today =
            ⟨true, .days (min (today - mostRecentD existing_bars + 5) 30)⟩ ∧
          min (today - mostRecentD existing_bars + 5) 30 ≤ 30) ∧
      (existing_bars ≠ [] → today - mostRecentD existing_bars ≤ 1 →
          existing_bars.length < 252 →
        freshnessDecide existing_bars today = ⟨true, .oneYear⟩) ∧
      (existing_bars ≠ [] → today - mostRecentD existing_bars ≤ 1 →
          252 ≤ existing_bars.length →
        freshnessDecide existing_bars today = ⟨false, .oneYear⟩) := by
  refine ⟨?_, ?_, ?_, ?_⟩
  · intro h; subst h; rfl
  · intro hne hstale
    unfold freshnessDecide
    rw [if_neg (fun hh => hne (List.isEmpty_iff.mp hh)), if_pos hstale]
    exact ⟨rfl, min_le_right _ _⟩
  · intro hne hfresh hshort
    unfold freshnessDecide
    rw [if_neg (fun hh => hne (List.isEmpty_iff.mp hh)), if_neg (by omega), if_pos hshort]
  · intro hne hfresh hlong
    unfold freshnessDecide
    rw [if_neg (fun hh => hne (List.isEmpty_iff.mp hh)), if_neg (by omega), if_neg (by omega)]

/-- Cache of 300 bars dated 1..300, used by the C4 witness. -/
def c4bars : List Bar := (List.range 300).map (fun i : ℕ => ⟨1, (i : ℤ) + 1, 1, 1, 1, 1, 1⟩)

theorem c4bars_length : c4bars.length = 300 := by
  unfold c4bars
  rw [List.length_map, List.length_range]

theorem c4bars_ne_nil : c4bars ≠ [] := by
  intro h
  have := c4bars_length
  rw [h] at this
  simp at this

theorem c4bars_mostRecent : mostRecentD c4bars = 300 := by
  have hmem : ∀ d ∈ c4bars.map (fun x => x.date), d ≤ 300 := by
    intro d hd
    simp only [c4bars, List.map_map, List.mem_map, List.mem_range,
      Function.comp_apply] at hd
    obtain ⟨i, hi, rfl⟩ := hd
    show (i : ℤ) + 1 ≤ 300
    omega
  have h300 : (300 : ℤ) ∈ c4bars.map (fun x => x.date) := by
    simp only [c4bars, List.map_map, List.mem_map, List.mem_range,
      Function.comp_apply]
    refine ⟨299, by omega, ?_⟩
    show ((299 : ℕ) : ℤ) + 1 = 300
    norm_num
  cases hc : c4bars with
  | nil => exact absurd hc c4bars_ne_nil
  | cons b bs =>
    rw [hc] at hmem h300
    show bs.foldl (fun a x => max a x.date) b.date = 300
    have hfold : bs.foldl (fun a x => max a x.date) b.date =
        (bs.map (fun x => x.date)).foldl max b.date :=
      (List.foldl_map _ _ _ _).symm
    rw [hfold]
    apply le_antisymm
    · rcases foldl_max_mem (bs.map fun x => x.date) b.date with h | h
      · rw [h]
        exact hmem b.date (by rw [List.map_cons]; exact List.mem_cons_self _ _)
      · exact hmem _ (by rw [List.map_cons]; exact List.mem_cons_of_mem _ h)
    · rw [List.map_cons, List.mem_cons] at h300
      rcases h300 with h | h
      · rw [h]
        exact foldl_max_le_init _ _
      · exact le_foldl_max _ _ _ h

/-- Witness for C4, the spec's freshness scenario: 300 cached bars whose
most recent is 3 days old get a capped 8-day top-up, not a full-year
refetch. -/
theorem C4_witness :
    freshnessDecide c4bars 303 = ⟨true, .days 8⟩ ∧ FetchPeriod.days 8 ≠ .oneYear := by
  have h := ((C4_freshness_policy_order c4bars 303).2.1 c4bars_ne_nil
    (by rw [c4bars_mostRecent]; norm_num)).1
  rw [c4bars_mostRecent] at h
  norm_num at h
  exact ⟨h, by decide⟩

/-- Claim C2, amended: when none of the four candidate dates yields any
record with a non-null sort key, the gainers/losers `update_one` still runs
— a board with an empty items list, keyed by the oldest candidate date, is
written for that (period, type); only the volume market-movers board is
omitted in that situation. -/
theorem C2_empty_board_still_written (db : List DailyMetric) (today : ℤ)
    (now : String) (label : WLabel) (typ : BoardType)
    (h : ∀ d ∈ dateTries today, queryMetrics db label typ d = []) :
    ({ date := today - 3, period := wlabelStr label, typ := boardTypeStr typ,
        generatedAt := now, items := [] } : Board) ∈ (leaderboardWrites db today now).1 ∧
      ((∀ d ∈ dateTries today, volumeQuery db d = []) →
        (leaderboardWrites db today now).2 = []) := by
  obtain ⟨hq, hmem, hempty, _⟩ := boardSearch_props db label typ today
  have hs2 : (boardSearch db label typ today).2 = [] := by
    rw [hq]; exact h _ hmem
  have hs1 : (boardSearch db label typ today).1 = today - 3 := hempty hs2
  have hsp : boardSearch db label typ today = (today - 3, []) := Prod.ext hs1 hs2
  constructor
  · refine List.mem_flatten.mpr ⟨pctBoardsForLabel db today now label, ?_, ?_⟩
    · exact List.mem_map_of_mem _ (by cases label <;> simp)
    · unfold pctBoardsForLabel
      refine List.mem_map.mpr ⟨typ, by cases typ <;> simp, ?_⟩
      rw [hsp]
      rfl
  · intro hv
    have hvb : volBoardsForDates db now (dateTries today) = [] := by
      unfold volBoardsForDates
      apply List.filterMap_eq_nil_iff.mpr
      intro d hd
      simp [hv d hd]
    unfold leaderboardWrites
    simp [hvb]

/-- Counterexample to claim C2 as stated: with an empty `daily_metrics`
collection, no candidate date yields any record with a non-null sort key,
yet a LeaderboardBoard for the (5d, high) combination — an empty-items
board dated three days back — is still written. -/
theorem C2_counterexample :
    ((dateTries 0).all fun d => (queryMetrics [] .w5d .high d).isEmpty) = true ∧
      ({ date := -3, period := "5d", typ := "high", generatedAt := "g",
          items := [] } : Board) ∈ (leaderboardWrites [] 0 "g").1 := by
  constructor
  · decide
  · decide

/-- Witness for C2 (amended) at the empty metrics collection. -/
theorem C2_witness :
    ({ date := -3, period := "5d", typ := "high", generatedAt := "g",
        items := [] } : Board) ∈ (leaderboardWrites [] 0 "g").1 ∧
      (leaderboardWrites [] 0 "g").2 = [] := by
  have h := C2_empty_board_still_written [] 0 "g" .w5d .high (fun d _ => rfl)
  exact ⟨h.1, h.2 (fun d _ => rfl)⟩

/-- Claim C8: the candidate dates are exactly the execution date and the
three preceding days, most recent first; the chosen date is one of them;
the used result set is the query of the chosen date, every query result is
capped at 3600 records of that date with a non-null sort key, every
candidate more recent than the chosen date had an empty result, an empty
final result means all four dates were tried, results are sorted by the
sort key in the direction of the board type, and items are ranked 1..K in
that order. -/
theorem C8_leaderboard_query (db : List DailyMetric) (today : ℤ) (label : WLabel)
    (typ : BoardType) :
    dateTries today = [today, today - 1, today - 2, today - 3] ∧
      (boardSearch db label typ today).1 ∈ dateTries today ∧
      (boardSearch db label typ today).2 =
        queryMetrics db label typ (boardSearch db label typ today).1 ∧
      ((boardSearch db label typ today).2 = [] →
        (boardSearch db label typ today).1 = today - 3) ∧
      (∀ d' ∈ dateTries today, (boardSearch db label typ today).1 < d' →
        queryMetrics db label typ d' = []) ∧
      (∀ d, (queryMetrics db label typ d).length ≤ 3600 ∧
        ∀ m ∈ queryMetrics db label typ d,
          m.date = d ∧ metricSortKey label typ m ≠ none) ∧
      (typ = .high → List.Sorted (mDescRel (metricSortKey label .high))
        (boardSearch db label .high today).2) ∧
      (typ = .low → List.Sorted (mAscRel (metricSortKey label .low))
        (boardSearch db label .low today).2) ∧
      ∀ ms : List DailyMetric,
        (mkItems (metricSortKey label typ) 1 ms).length = ms.length ∧
        ∀ i (h : i < (mkItems (metricSortKey label typ) 1 ms).length),
          ((mkItems (metricSortKey label typ) 1 ms).get ⟨i, h⟩).rank = i + 1 := by
  obtain ⟨hq, hmem, hempty, hearlier⟩ := boardSearch_props db label typ today
  refine ⟨dateTries_eq today, hmem, hq, hempty, hearlier, ?_, ?_, ?_, ?_⟩
  · intro d
    exact ⟨queryMetrics_length_le db label typ d,
      fun m hm => (queryMetrics_mem db label typ d m hm).2⟩
  · intro _
    obtain ⟨hqh, _, _, _⟩ := boardSearch_props db label .high today
    rw [hqh]
    exact queryMetrics_sorted_high db label _
  · intro _
    obtain ⟨hql, _, _, _⟩ := boardSearch_props db label .low today
    rw [hql]
    exact queryMetrics_sorted_low db label _
  · intro ms
    refine ⟨mkItems_length _ ms 1, ?_⟩
    intro i hi
    rw [mkItems_rank _ ms 1 i hi]
    omega

/-- Sample metric record for the C8 witness: instrument 7 dated day 3 with
non-null percent-change keys. -/
def c8metric : DailyMetric := ⟨7, "ACME", 3, 1, 2, "t", wsEx, none, none, none, none, false⟩

/-- Witness for C8: with one metric dated day 3 and execution date 5, the
two more recent candidates are empty, the search lands on day 3, and the
result set is within the cap. -/
theorem C8_witness :
    dateTries 5 = [5, 4, 3, 2] ∧ queryMetrics [c8metric] .w5d .high 4 = [] ∧
      (boardSearch [c8metric] .w5d .high 5).2.length ≤ 3600 := by
  have h := C8_leaderboard_query [c8metric] 5 .w5d .high
  refine ⟨h.1, ?_, ?_⟩
  · exact h.2.2.2.2.1 4 (by decide) (by decide)
  · rw [h.2.2.1]
    exact (h.2.2.2.2.2.1 (boardSearch [c8metric] .w5d .high 5).1).1

/-- Starting cache for the C9 counterexample: ten bars of instrument 1
dated 86..95, so the most recent bar is five days older than the run
date 100. -/
def c9init : List Bar :=
  (List.range 10).map (fun i : ℕ => ⟨1, (i : ℤ) + 86, 1, 1, 1, 1, 1⟩)

/-- External market data for the C9 counterexample, identical across both
runs: a short-period request returns bars dated 91..100, a full-year
request returns bars dated 41..100. -/
def c9src : FetchPeriod → List Bar
  | .days _ => (List.range 10).map (fun i : ℕ => ⟨1, (i : ℤ) + 91, 1, 1, 1, 1, 1⟩)
  | .oneYear => (List.range 60).map (fun i : ℕ => ⟨1, (i : ℤ) + 41, 1, 1, 1, 1, 1⟩)

/-- Counterexample to claim C9 as stated: two successive runs of the
bar-synchronization step on identical external data do not leave
`daily_bars` byte-identical.  The first run tops up the stale ten-bar cache
to 15 bars; the second run sees fresh-but-insufficient history (15 < 252)
and fetches the full year, growing the collection to 60 bars. -/
theorem C9_counterexample :
    (syncBars c9src 100 1 (syncBars c9src 100 1 c9init)).length ≠
      (syncBars c9src 100 1 c9init).length := by
  decide

/-- Claim C9, amended: the bar and metric upserts keyed by
(instrumentId, date) are idempotent — applying the same input twice leaves
the stored collection identical to applying it once.  Full-pipeline
byte-identity across two successive runs does not hold (see the
counterexample): a second run may fetch and store additional history when
the first run's top-up left fewer than 252 fresh bars. -/
theorem C9_upsert_idempotent :
    (∀ (s : List Bar) (b : Bar), upsertBar (upsertBar s b) b = upsertBar s b) ∧
      ∀ (s : List DailyMetric) (m : DailyMetric),
        upsertMetric (upsertMetric s m) m = upsertMetric s m := by
  constructor
  · intro s b
    induction s with
    | nil =>
      show upsertBar [b] b = [b]
      simp [upsertBar]
    | cons x xs ih =>
      by_cases hk : x.instrumentId = b.instrumentId ∧ x.date = b.date
      · simp only [upsertBar, if_pos hk]
        simp [upsertBar]
      · simp only [upsertBar, if_neg hk, ih]
  · intro s m
    induction s with
    | nil =>
      show upsertMetric [m] m = [m]
      simp [upsertMetric]
    | cons x xs ih =>
      by_cases hk : x.instrumentId = m.instrumentId ∧ x.date = m.date
      · simp only [upsertMetric, if_pos hk]
        simp [upsertMetric]
      · simp only [upsertMetric, if_neg hk, ih]

/-- First ACME bar of the spec scenario: day 1, all prices 100. -/
def acmeB1 : Bar := ⟨1, 1, 100, 100, 100, 100, 5⟩

/-- Second ACME bar of the spec scenario: day 2, all prices 110. -/
def acmeB2 : Bar := ⟨1, 2, 110, 110, 110, 110, 6⟩

/-- The two-bar ACME history of the spec scenario. -/
def acmeBars : List Bar := [acmeB1, acmeB2]

/-- Witness for C5, the spec's ACME scenario: two bars with closes 100 and
110 give a null ma50, a false stacked trend, and a 5d percent change from
the low of exactly 10. -/
theorem C5_witness :
    (computeMetrics 1 "ACME" "t" acmeBars).map (fun m => m.ma50) = some none ∧
      (computeMetrics 1 "ACME" "t" acmeBars).map (fun m => m.stacked_ma_trend) = some false ∧
      ((computeMetrics 1 "ACME" "t" acmeBars).bind fun m =>
        (m.ws WLabel.w5d).bind fun s => s.change_pct_from_low) = some 10 := by
  obtain ⟨m, hm, h50, _, _, _, _, _, hst⟩ :=
    C5_moving_averages 1 "ACME" "t" acmeBars (by decide)
  have hma : m.ma50 = none := h50 (by decide)
  have hstacked : m.stacked_ma_trend = false := hst hma
  refine ⟨?_, ?_, ?_⟩
  · rw [hm]
    show some m.ma50 = some none
    exact congrArg some hma
  · rw [hm]
    show some m.stacked_ma_trend = some false
    exact congrArg some hstacked
  · have hsort : acmeBars.insertionSort barDateLe = acmeB1 :: [acmeB2] := by decide
    have he := computeMetrics_eq 1 "ACME" "t" acmeBars acmeB1 [acmeB2] hsort (by decide)
    rw [he]
    show (computeWindowStats (acmeB1 :: [acmeB2]) (lastOf acmeB1 [acmeB2]).close 5).bind
      (fun s => s.change_pct_from_low) = some 10
    simp only [computeWindowStats, windowBars, lastOf, acmeB1, acmeB2]
    norm_num [min_def]

/-- Three-bar series for the C7 witness (shorter than the 5d window). -/
def c7bars : List Bar :=
  [⟨1, 1, 10, 12, 9, 11, 1⟩, ⟨1, 2, 11, 15, 10, 14, 1⟩, ⟨1, 3, 14, 14, 8, 13, 1⟩]

/-- Witness for C7: a 3-bar series with a 5d window still computes, over
all 3 bars, with high 15 and low 8. -/
theorem C7_witness :
    (windowBars c7bars 5).length = 3 ∧
      (computeWindowStats c7bars 13 5).map (fun s => s.high) = some 15 ∧
      (computeWindowStats c7bars 13 5).map (fun s => s.low) = some 8 := by
  have h := C7_window_stats c7bars 13 5 (by decide) (by decide)
  refine ⟨by rw [h.1]; decide, ?_, ?_⟩
  · decide
  · decide

/-- Three-bar store for the C10 witness: two bars of instrument 1 and one
bar of instrument 2. -/
def c10store : List Bar :=
  [⟨1, 5, 1, 1, 1, 1, 1⟩, ⟨2, 6, 1, 1, 1, 1, 1⟩, ⟨1, 4, 1, 1, 1, 1, 1⟩]

/-- Witness for C10 at a concrete store: the series is within the cap and
each of its bars is a cached bar of instrument 1. -/
theorem C10_witness :
    (metricsSeries c10store 1).length ≤ 300 ∧
      (⟨1, 4, 1, 1, 1, 1, 1⟩ : Bar) ∈ c10store ∧
      (⟨1, 4, 1, 1, 1, 1, 1⟩ : Bar).instrumentId = 1 :=
  ⟨(C10_bars_capped_300 c10store 1).1,
    (C10_bars_capped_300 c10store 1).2.1 ⟨1, 4, 1, 1, 1, 1, 1⟩ (by decide)⟩
